import Mathlib

/-!
Shallow embedding of the training-loop notebook of this repository
(`src/templates/ray-summit-ai-libraries/2_Intro_Train.ipynb`).

The notebook contains two training loops over a ResNet18 classifier on MNIST:
a single-device loop (`train_loop_torch`, together with `build_resnet18`,
`load_model_torch`, `data_loader_torch`, `report_metrics_torch`,
`save_checkpoint_and_metrics_torch`) and a multi-worker Ray Train loop
(`train_loop_ray_train`, together with `load_model_ray_train`,
`data_loader_ray_train`, `print_metrics_ray_train`,
`save_checkpoint_and_metrics_ray_train`).

The embedding keeps the notebook's control flow and data plumbing exact and
abstracts the external library calls (torch forward/backward, the loss
criterion, the torchmetrics accuracy update) as parameters (`Ops`, `TorchEnv`):
the notebook's own code never inspects the values those calls return, it only
threads them.  Machine floats are modelled as rationals.  The filesystem a run
writes into (the run directory with `metrics.csv` and `model.pt`) is modelled
as an explicit record threaded through the loop.
-/

namespace RS24

/-- A dataset sample: an abstract single-channel image (one scalar stands in
for the pixel tensor) together with its integer class label. -/
abbrev Sample := Int × Nat

/-- A batch as yielded by a data loader: the images and the labels of its
samples, in order. -/
structure Batch where
  images : List Int
  labels : List Nat
deriving DecidableEq

/-- Group a run of consecutive samples into one batch. -/
def toBatch (s : List Sample) : Batch :=
  { images := s.map Prod.fst, labels := s.map Prod.snd }

/-- The classifier model: its first-layer input channel count, its declared
class count (the output dimension of the final layer), and its weights,
flattened to one list.  The weight count below is an abstract stand-in for the
real parameter count; only its dependence on the architecture matters here. -/
structure Model where
  inChannels : Nat
  numClasses : Nat
  weights : List Int
deriving DecidableEq

/-- Abstract stand-in for the parameter count of the network as a function of
the first convolution's input channels and the declared class count. -/
def paramCount (inChannels numClasses : Nat) : Nat :=
  inChannels * 64 + 512 * numClasses

/-- `torchvision.models.resnet18(num_classes=...)`: a model with a 3-channel
first convolution and the given output class count. -/
def resnet18 (num_classes : Nat) : Model :=
  { inChannels := 3, numClasses := num_classes,
    weights := List.replicate (paramCount 3 num_classes) 0 }

/-- `build_resnet18` from the notebook: builds `resnet18(num_classes=10)` and
replaces `conv1` by a single-channel convolution (grayscale MNIST images),
which re-initializes the first layer's weights. -/
def build_resnet18 : Model :=
  let model := resnet18 10
  { model with
    inChannels := 1,
    weights := List.replicate (paramCount 1 model.numClasses) 0 }

/-- `load_model_torch` from the notebook: `build_resnet18()` followed by
`model.to("cuda")`; device placement is modelled as the identity. -/
def load_model_torch : Model := build_resnet18

/-- The batching of `torch.utils.data.DataLoader(..., drop_last=True)`:
consecutive disjoint groups of exactly `batch_size` elements; the trailing
remainder of fewer than `batch_size` elements is dropped. -/
def chunksExact {α : Type _} (batch_size : Nat) (xs : List α) : List (List α) :=
  (List.range (xs.length / batch_size)).map
    (fun i => (xs.drop (i * batch_size)).take batch_size)

/-- `data_loader_torch` from the notebook:
`DataLoader(MNIST(...), batch_size=batch_size, shuffle=True, drop_last=True)`.
The `data` argument is the dataset in the (externally shuffled) order the
loader traverses it. -/
def data_loader_torch (batch_size : Nat) (data : List Sample) : List Batch :=
  (chunksExact batch_size data).map toBatch

/-- `report_metrics_torch` from the notebook: builds the metrics dict
`{"loss": loss.item(), "epoch": epoch, "accuracy": accuracy.item()}` (a Python
dict keeps insertion order, modelled as an association list) and prints it. -/
def report_metrics_torch (loss : ℚ) (accuracy : ℚ) (epoch : Nat) :
    List (String × ℚ) :=
  [("loss", loss), ("epoch", (epoch : ℚ)), ("accuracy", accuracy)]

/-- The run directory on disk: whether the directory exists, the rows of
`metrics.csv` (each row a list of delimited values), and the contents of
`model.pt` (the serialized weights), if present. -/
structure FS where
  dirExists : Bool
  metricsRows : List (List ℚ)
  modelFile : Option (List Int)
deriving DecidableEq

/-- A fresh run directory: nothing on disk yet. -/
def emptyFS : FS :=
  { dirExists := false, metricsRows := [], modelFile := none }

/-- `Path(local_path).mkdir(parents=True, exist_ok=True)`: creates the run
directory if absent and leaves any existing contents untouched. -/
def mkdir_exist_ok (fs : FS) : FS := { fs with dirExists := true }

/-- `torch.save(model.state_dict(), path)`: the serialized form of the model's
weights, as written to `model.pt`. -/
def serialize_state_dict (model : Model) : List Int := model.weights

/-- `save_checkpoint_and_metrics_torch` from the notebook: opens
`metrics.csv` in append mode and writes one csv row holding
`metrics.values()` (the dict's values in insertion order), then
`torch.save`s the model's state dict to `model.pt`, replacing that file. -/
def save_checkpoint_and_metrics_torch (metrics : List (String × ℚ))
    (model : Model) (fs : FS) : FS :=
  let fs1 := { fs with metricsRows := fs.metricsRows ++ [metrics.map Prod.snd] }
  { fs1 with modelFile := some (serialize_state_dict model) }

/-- The external library operations the loops call, abstracted: the model's
forward pass (per-sample logits), the `CrossEntropyLoss` criterion, the
combined `zero_grad`/`backward`/`optimizer.step` effect on the weights, and
the torchmetrics accuracy update's contribution as a (correct, total) pair. -/
structure Ops where
  forward : Model → List Int → List (List ℚ)
  criterion : List (List ℚ) → List Nat → ℚ
  backwardStep : Model → ℚ → Model
  accUpdate : List (List ℚ) → List Nat → Nat × Nat

/-- The same external operations, but each call may raise an exception of
type `ε` (missing GPU, out-of-memory, download failure, ...). -/
structure TorchEnv (ε : Type) where
  forward : Model → List Int → Except ε (List (List ℚ))
  criterion : List (List ℚ) → List Nat → Except ε ℚ
  backwardStep : Model → ℚ → Except ε Model
  accUpdate : List (List ℚ) → List Nat → Except ε (Nat × Nat)

/-- An environment in which no library call raises. -/
def pureTorchEnv {ε : Type} (ops : Ops) : TorchEnv ε :=
  { forward := fun m i => .ok (ops.forward m i),
    criterion := fun o l => .ok (ops.criterion o l),
    backwardStep := fun m l => .ok (ops.backwardStep m l),
    accUpdate := fun o l => .ok (ops.accUpdate o l) }

/-- An error escaping a training loop: either an exception `ε` raised by a
library call, or Python's `NameError` at epoch end when the local variable
`loss` was never assigned because the loader yielded no batches. -/
inductive TrainErr (ε : Type) where
  | lib : ε → TrainErr ε
  | unboundLossName : TrainErr ε
deriving DecidableEq

/-- The observable epoch-end actions of a loop, for ordering/counting:
emitting the metrics record, resetting the running accuracy metric, creating
the run directory, and writing the checkpoint. -/
inductive Ev where
  | report
  | resetMetric
  | mkdirRun
  | saveCheckpoint
deriving DecidableEq

/-- `torchmetrics.Accuracy.compute()`: the accumulated fraction of correct
predictions. -/
def acc_compute (correct total : Nat) : ℚ := (correct : ℚ) / (total : ℚ)

/-- The single-device loop's state: the model, the accuracy metric's
accumulators, the function-local variable `loss` (unassigned before the first
batch), the run directory, and the trace of epoch-end actions so far. -/
structure LoopSt where
  model : Model
  accC : Nat
  accT : Nat
  lastLoss : Option ℚ
  fs : FS
  events : List Ev
deriving DecidableEq

/-- One iteration of the inner batch loop of `train_loop_torch`: forward pass,
loss, backward pass and optimizer step, accuracy update.  Any exception from a
library call is returned as is. -/
def batch_step {ε : Type} (env : TorchEnv ε) (st : LoopSt) (b : Batch) :
    Except (TrainErr ε) LoopSt :=
  match env.forward st.model b.images with
  | .error e => .error (.lib e)
  | .ok outputs =>
    match env.criterion outputs b.labels with
    | .error e => .error (.lib e)
    | .ok loss =>
      match env.backwardStep st.model loss with
      | .error e => .error (.lib e)
      | .ok model1 =>
        match env.accUpdate outputs b.labels with
        | .error e => .error (.lib e)
        | .ok ct =>
          .ok { st with
                model := model1, accC := st.accC + ct.1,
                accT := st.accT + ct.2, lastLoss := some loss }

/-- The inner `for images, labels in data_loader` loop of
`train_loop_torch`. -/
def run_batches {ε : Type} (env : TorchEnv ε) :
    List Batch → LoopSt → Except (TrainErr ε) LoopSt
  | [], st => .ok st
  | b :: bs, st =>
    match batch_step env st b with
    | .error e => .error e
    | .ok st1 => run_batches env bs st1

/-- One epoch of `train_loop_torch`: the batch loop, then in source order the
metrics report (reading the local `loss`, which raises a `NameError` if no
batch ever assigned it), the accuracy reset, the run directory creation, and
the checkpoint-and-metrics write. -/
def run_epoch_torch {ε : Type} (env : TorchEnv ε) (batches : List Batch)
    (epoch : Nat) (st : LoopSt) : Except (TrainErr ε) LoopSt :=
  match run_batches env batches st with
  | .error e => .error e
  | .ok st1 =>
    match st1.lastLoss with
    | none => .error .unboundLossName
    | some lossVal =>
      let metrics := report_metrics_torch lossVal
        (acc_compute st1.accC st1.accT) epoch
      let st2 := { st1 with events := st1.events ++ [Ev.report] }
      let st3 := { st2 with
                   accC := 0, accT := 0,
                   events := st2.events ++ [Ev.resetMetric] }
      let st4 := { st3 with
                   fs := mkdir_exist_ok st3.fs,
                   events := st3.events ++ [Ev.mkdirRun] }
      .ok { st4 with
            fs := save_checkpoint_and_metrics_torch metrics st4.model st4.fs,
            events := st4.events ++ [Ev.saveCheckpoint] }

/-- The outer `for epoch in range(num_epochs)` loop of `train_loop_torch`. -/
def run_epochs_torch {ε : Type} (env : TorchEnv ε) (batches : List Batch) :
    List Nat → LoopSt → Except (TrainErr ε) LoopSt
  | [], st => .ok st
  | e :: es, st =>
    match run_epoch_torch env batches e st with
    | .error err => .error err
    | .ok st1 => run_epochs_torch env batches es st1

/-- The loop's starting state: a freshly built model, a zeroed accuracy
metric, no `loss` assigned yet, the given on-disk state, no actions yet. -/
def initLoopSt (fs : FS) : LoopSt :=
  { model := load_model_torch, accC := 0, accT := 0, lastLoss := none,
    fs := fs, events := [] }

/-- `train_loop_torch` from the notebook, over `num_epochs` epochs with the
given batch size, dataset order and initial on-disk state. -/
def train_loop_torch {ε : Type} (env : TorchEnv ε) (num_epochs batch_size : Nat)
    (data : List Sample) (fs : FS) : Except (TrainErr ε) LoopSt :=
  run_epochs_torch env (data_loader_torch batch_size data)
    (List.range num_epochs) (initLoopSt fs)

/-- The Ray Train worker context: the only distributed quantities the
notebook's code reads, `get_world_size()` and `get_world_rank()`. -/
structure RayCtx where
  worldSize : Nat
  worldRank : Nat
deriving DecidableEq

/-- `ray.train.torch.prepare_model`: wraps the model in
`DistributedDataParallel` and moves it to its device; on the weights the
notebook's code observes this is the identity (`model.module` unwraps it). -/
def prepare_model (model : Model) : Model := model

/-- `load_model_ray_train` from the notebook: `resnet18(num_classes=10)` with
`conv1` replaced by a single-channel convolution (the same architecture as
`build_resnet18`, written out inline in the notebook), then
`prepare_model`. -/
def load_model_ray_train : Model :=
  let model := resnet18 10
  let model := { model with
                 inChannels := 1,
                 weights := List.replicate (paramCount 1 model.numClasses) 0 }
  prepare_model model

/-- The sharding of `DistributedSampler` (added by
`ray.train.torch.prepare_data_loader`): worker `rank` of `worldSize` sees the
samples at positions congruent to `rank` modulo `worldSize`. -/
def shard_dataset (rank worldSize : Nat) (data : List Sample) : List Sample :=
  ((data.enum.filter (fun p => p.1 % worldSize == rank)).map Prod.snd)

/-- `data_loader_ray_train` from the notebook:
`DataLoader(MNIST(...), batch_size, shuffle=True, drop_last=True)` followed by
`prepare_data_loader`, which adds the `DistributedSampler`: this worker's
shard, batched into groups of exactly `batch_size` with the remainder
dropped. -/
def data_loader_ray_train (batch_size : Nat) (ctx : RayCtx)
    (data : List Sample) : List Batch :=
  (chunksExact batch_size (shard_dataset ctx.worldRank ctx.worldSize data)).map
    toBatch

/-- `print_metrics_ray_train` from the notebook: the metrics dict
`{"loss": ..., "accuracy": ..., "epoch": ...}` in insertion order; the print
happens only on world rank 0 but the returned dict is the same on every
worker. -/
def print_metrics_ray_train (loss accuracy : ℚ) (epoch : Nat) :
    List (String × ℚ) :=
  [("loss", loss), ("accuracy", accuracy), ("epoch", (epoch : ℚ))]

/-- One `ray.train.report(metrics, checkpoint=...)` call made by a worker:
the metrics dict and the optional attached checkpoint (the serialized model
weights placed in the checkpoint directory). -/
structure ReportCall where
  metrics : List (String × ℚ)
  checkpoint : Option (List Int)
deriving DecidableEq

/-- The notebook's first definition of `save_checkpoint_and_metrics_ray_train`
(later superseded in the same notebook): every worker serializes
`model.module.state_dict()` and attaches a checkpoint to its report. -/
def save_checkpoint_and_metrics_ray_train_v1 (model : Model)
    (metrics : List (String × ℚ)) : ReportCall :=
  { metrics := metrics, checkpoint := some (serialize_state_dict model) }

/-- The notebook's final (effective) definition of
`save_checkpoint_and_metrics_ray_train`: only the worker with world rank 0
serializes `model.module.state_dict()` and builds a checkpoint; every worker
still calls `ray.train.report`, the others with `checkpoint=None`. -/
def save_checkpoint_and_metrics_ray_train (ctx : RayCtx) (model : Model)
    (metrics : List (String × ℚ)) : ReportCall :=
  let checkpoint :=
    if ctx.worldRank = 0 then some (serialize_state_dict model) else none
  { metrics := metrics, checkpoint := checkpoint }

/-- One worker's state in `train_loop_ray_train`: the (DDP-wrapped) model, the
accuracy accumulators, the local `loss` variable, the report calls made so
far, and the trace of epoch-end actions. -/
structure RayLoopSt where
  model : Model
  accC : Nat
  accT : Nat
  lastLoss : Option ℚ
  reports : List ReportCall
  events : List Ev
deriving DecidableEq

/-- One iteration of the inner batch loop of `train_loop_ray_train`: forward,
loss, backward and optimizer step (gradient synchronization is the external
framework's), accuracy update. -/
def ray_batch_step (ops : Ops) (st : RayLoopSt) (b : Batch) : RayLoopSt :=
  let outputs := ops.forward st.model b.images
  let loss := ops.criterion outputs b.labels
  let model1 := ops.backwardStep st.model loss
  let ct := ops.accUpdate outputs b.labels
  { st with
    model := model1, accC := st.accC + ct.1, accT := st.accT + ct.2,
    lastLoss := some loss }

/-- One epoch of `train_loop_ray_train`: `sampler.set_epoch(epoch)` (external
reshuffling, no local effect), the batch loop, then in source order the
metrics record, the report-with-optional-checkpoint call, and the accuracy
reset.  `none` is the `NameError` on reading `loss` when the worker's loader
yielded no batches. -/
def run_epoch_ray_train (ops : Ops) (ctx : RayCtx) (batches : List Batch)
    (epoch : Nat) (st : RayLoopSt) : Option RayLoopSt :=
  let st1 := batches.foldl (ray_batch_step ops) st
  match st1.lastLoss with
  | none => none
  | some lossVal =>
    let metrics := print_metrics_ray_train lossVal
      (acc_compute st1.accC st1.accT) epoch
    let st2 := { st1 with events := st1.events ++ [Ev.report] }
    let rep := save_checkpoint_and_metrics_ray_train ctx st2.model metrics
    let st3 := { st2 with
                 reports := st2.reports ++ [rep],
                 events := st2.events ++ [Ev.saveCheckpoint] }
    some { st3 with
           accC := 0, accT := 0, events := st3.events ++ [Ev.resetMetric] }

/-- The outer `for epoch in range(config["num_epochs"])` loop of
`train_loop_ray_train`. -/
def run_epochs_ray_train (ops : Ops) (ctx : RayCtx) (batches : List Batch) :
    List Nat → RayLoopSt → Option RayLoopSt
  | [], st => some st
  | e :: es, st =>
    match run_epoch_ray_train ops ctx batches e st with
    | none => none
    | some st1 => run_epochs_ray_train ops ctx batches es st1

/-- The `train_loop_config` dict passed to the trainer. -/
structure RayConfig where
  num_epochs : Nat
  global_batch_size : Nat
deriving DecidableEq

/-- A worker's starting state in `train_loop_ray_train`. -/
def initRayLoopSt : RayLoopSt :=
  { model := load_model_ray_train, accC := 0, accT := 0, lastLoss := none,
    reports := [], events := [] }

/-- `train_loop_ray_train` from the notebook, as executed by the worker with
context `ctx`: the local batch size is
`config["global_batch_size"] // get_world_size()` (integer floor division),
and the loop threads only `ctx` and the abstract library calls. -/
def train_loop_ray_train (ops : Ops) (config : RayConfig) (ctx : RayCtx)
    (data : List Sample) : Option RayLoopSt :=
  let batch_size := config.global_batch_size / ctx.worldSize
  let batches := data_loader_ray_train batch_size ctx data
  run_epochs_ray_train ops ctx batches (List.range config.num_epochs)
    initRayLoopSt

/-- `model.load_state_dict(state_dict)`: replaces the model's weights with the
deserialized ones; torch raises if the state dict does not match the model's
architecture, modelled as a size check. -/
def load_state_dict (model : Model) (state_dict : List Int) :
    Except String Model :=
  if state_dict.length = model.weights.length then
    .ok { model with weights := state_dict }
  else
    .error "state dict size mismatch"

/-- The notebook's checkpoint-reload cell: build a fresh `build_resnet18()`,
`torch.load` the checkpoint file, `load_state_dict` it into the fresh model
(`loaded_model.eval()` only flips the train/eval mode flag, not modelled). -/
def checkpoint_reload (file : List Int) : Except String Model :=
  match load_state_dict build_resnet18 file with
  | .error e => .error e
  | .ok loaded_model => .ok loaded_model

/-- A simplest concrete instantiation of the abstract library operations,
used to exercise the loops on concrete inputs. -/
def trivialOps : Ops :=
  { forward := fun _ _ => [],
    criterion := fun _ _ => 0,
    backwardStep := fun model _ => model,
    accUpdate := fun _ _ => (1, 1) }

/-! ### Helper lemmas: the single-device loop in a non-raising environment -/

/-- `batch_step` never raises in a non-raising environment; its effect on the
state is the pure update. -/
lemma batch_step_pure {ε : Type} (ops : Ops) (st : LoopSt) (b : Batch) :
    batch_step (pureTorchEnv (ε := ε) ops) st b = .ok
      { st with
        model := ops.backwardStep st.model
          (ops.criterion (ops.forward st.model b.images) b.labels),
        accC := st.accC + (ops.accUpdate (ops.forward st.model b.images)
          b.labels).1,
        accT := st.accT + (ops.accUpdate (ops.forward st.model b.images)
          b.labels).2,
        lastLoss := some (ops.criterion (ops.forward st.model b.images)
          b.labels) } := rfl

/-- In a non-raising environment the batch loop succeeds; it never touches the
filesystem or the action trace, its core result does not depend on them, and
it leaves `loss` assigned as soon as it has processed one batch. -/
lemma run_batches_pure {ε : Type} (ops : Ops) :
    ∀ (bs : List Batch) (mdl : Model) (c t : Nat) (l : Option ℚ),
    ∃ (m1 : Model) (c1 t1 : Nat) (l1 : Option ℚ),
      (bs = [] → m1 = mdl ∧ c1 = c ∧ t1 = t ∧ l1 = l) ∧
      (l.isSome → l1.isSome) ∧
      (bs ≠ [] → l1.isSome) ∧
      ∀ (fs : FS) (ev : List Ev),
        run_batches (pureTorchEnv (ε := ε) ops) bs ⟨mdl, c, t, l, fs, ev⟩ =
          .ok ⟨m1, c1, t1, l1, fs, ev⟩ := by
  intro bs
  induction bs with
  | nil =>
    intro mdl c t l
    exact ⟨mdl, c, t, l, fun _ => ⟨rfl, rfl, rfl, rfl⟩, fun h => h,
      fun h => absurd rfl h, fun fs ev => rfl⟩
  | cons b bs ih =>
    intro mdl c t l
    obtain ⟨m1, c1, t1, l1, _, hpres, _, hrun⟩ := ih
      (ops.backwardStep mdl (ops.criterion (ops.forward mdl b.images) b.labels))
      (c + (ops.accUpdate (ops.forward mdl b.images) b.labels).1)
      (t + (ops.accUpdate (ops.forward mdl b.images) b.labels).2)
      (some (ops.criterion (ops.forward mdl b.images) b.labels))
    refine ⟨m1, c1, t1, l1, fun h => absurd h (List.cons_ne_nil b bs),
      fun _ => hpres rfl, fun _ => hpres rfl, fun fs ev => ?_⟩
    rw [run_batches, batch_step_pure]
    exact hrun fs ev

/-- In a non-raising environment, one epoch with at least one batch succeeds
and performs, in source order, exactly the actions report, metric reset,
directory creation, checkpoint write: it appends exactly one row
`[loss, epoch, accuracy]` to the metrics file and replaces `model.pt` with the
current weights, independently of the previous on-disk contents. -/
lemma run_epoch_torch_pure {ε : Type} (ops : Ops) (batches : List Batch)
    (hbs : batches ≠ []) (epoch : Nat) (mdl : Model) (c t : Nat)
    (l : Option ℚ) (ev : List Ev) :
    ∃ (m1 : Model) (lossVal accVal : ℚ),
      ∀ fs : FS,
        run_epoch_torch (pureTorchEnv (ε := ε) ops) batches epoch
            ⟨mdl, c, t, l, fs, ev⟩ = .ok
          ⟨m1, 0, 0, some lossVal,
            ⟨true, fs.metricsRows ++ [[lossVal, (epoch : ℚ), accVal]],
              some m1.weights⟩,
            ev ++ [Ev.report, Ev.resetMetric, Ev.mkdirRun,
              Ev.saveCheckpoint]⟩ := by
  obtain ⟨m1, c1, t1, l1, _, _, hne, hrun⟩ := run_batches_pure (ε := ε) ops
    batches mdl c t l
  obtain ⟨lossVal, hl⟩ := Option.isSome_iff_exists.mp (hne hbs)
  refine ⟨m1, lossVal, acc_compute c1 t1, fun fs => ?_⟩
  rw [run_epoch_torch, hrun fs ev, hl]
  simp [report_metrics_torch, save_checkpoint_and_metrics_torch,
    mkdir_exist_ok, serialize_state_dict]

/-- In a non-raising environment, running the epochs `es` (with at least one
batch per epoch) succeeds; the run appends one `[loss, epoch, accuracy]` row
per epoch to the metrics file in epoch order, performs per epoch exactly the
action block report, reset, mkdir, checkpoint write, and afterwards `model.pt`
holds exactly the final weights — all independently of the initial on-disk
contents, which the loop never reads. -/
lemma run_epochs_torch_pure {ε : Type} (ops : Ops) (batches : List Batch)
    (hbs : batches ≠ []) :
    ∀ (es : List Nat) (mdl : Model) (c t : Nat) (l : Option ℚ) (ev : List Ev),
    ∃ (m1 : Model) (c1 t1 : Nat) (l1 : Option ℚ) (ps : List (ℚ × ℚ)),
      ps.length = es.length ∧
      (es = [] → m1 = mdl) ∧
      ∀ fs : FS,
        run_epochs_torch (pureTorchEnv (ε := ε) ops) batches es
            ⟨mdl, c, t, l, fs, ev⟩ = .ok
          ⟨m1, c1, t1, l1,
            ⟨(if es = [] then fs.dirExists else true),
              fs.metricsRows ++
                List.zipWith (fun (e : Nat) (p : ℚ × ℚ) => [p.1, (e : ℚ), p.2]) es ps,
              (if es = [] then fs.modelFile else some m1.weights)⟩,
            ev ++ (List.replicate es.length
              [Ev.report, Ev.resetMetric, Ev.mkdirRun,
                Ev.saveCheckpoint]).flatten⟩ := by
  intro es
  induction es with
  | nil =>
    intro mdl c t l ev
    refine ⟨mdl, c, t, l, [], rfl, fun _ => rfl, fun fs => ?_⟩
    simp [run_epochs_torch]
  | cons e es ih =>
    intro mdl c t l ev
    obtain ⟨mE, lossVal, accVal, hepoch⟩ := run_epoch_torch_pure (ε := ε) ops
      batches hbs e mdl c t l ev
    obtain ⟨m1, c1, t1, l1, ps, hlen, hnil, hrun⟩ := ih mE 0 0 (some lossVal)
      (ev ++ [Ev.report, Ev.resetMetric, Ev.mkdirRun, Ev.saveCheckpoint])
    refine ⟨m1, c1, t1, l1, (lossVal, accVal) :: ps, by simp [hlen],
      fun h => absurd h (List.cons_ne_nil e es), fun fs => ?_⟩
    rw [run_epochs_torch, hepoch fs]
    dsimp only
    rw [hrun ⟨true, fs.metricsRows ++ [[lossVal, (e : ℚ), accVal]],
        some mE.weights⟩]
    by_cases hes : es = []
    · subst hes
      simp only [List.length_nil] at hlen
      rw [List.length_eq_zero] at hlen
      subst hlen
      rw [hnil rfl]
      simp [List.replicate_succ]
    · simp [hes, List.replicate_succ, List.append_assoc]

/-! ### Helper lemmas: the batching with `drop_last=True` -/

/-- `drop_last` batching yields `length / batch_size` batches. -/
lemma chunksExact_length {α : Type _} (batch_size : Nat) (xs : List α) :
    (chunksExact batch_size xs).length = xs.length / batch_size := by
  simp [chunksExact]

/-- Every batch yielded by `drop_last` batching has exactly `batch_size`
elements. -/
lemma length_of_mem_chunksExact {α : Type _} {batch_size : Nat}
    {xs : List α} {c : List α} (hc : c ∈ chunksExact batch_size xs) :
    c.length = batch_size := by
  obtain ⟨i, hi, rfl⟩ := List.mem_map.mp hc
  rw [List.mem_range] at hi
  have hb : 0 < batch_size := by
    rcases Nat.eq_zero_or_pos batch_size with h0 | h0
    · rw [h0] at hi
      simp at hi
    · exact h0
  have hle : (i + 1) * batch_size ≤ xs.length :=
    (Nat.le_div_iff_mul_le hb).mp hi
  rw [Nat.succ_mul] at hle
  simp only [List.length_take, List.length_drop]
  omega

/-! ### Helper lemmas: the multi-worker loop -/

/-- The inner batch loop of a Ray Train worker never touches the report list
or the action trace, and leaves `loss` assigned as soon as it has processed
one batch. -/
lemma foldl_ray_batch_step (ops : Ops) :
    ∀ (bs : List Batch) (st : RayLoopSt),
      (bs.foldl (ray_batch_step ops) st).reports = st.reports ∧
      (bs.foldl (ray_batch_step ops) st).events = st.events ∧
      (st.lastLoss.isSome →
        (bs.foldl (ray_batch_step ops) st).lastLoss.isSome) ∧
      (bs ≠ [] → (bs.foldl (ray_batch_step ops) st).lastLoss.isSome) := by
  intro bs
  induction bs with
  | nil =>
    intro st
    exact ⟨rfl, rfl, fun h => h, fun h => absurd rfl h⟩
  | cons b bs ih =>
    intro st
    obtain ⟨h1, h2, h3, _⟩ := ih (ray_batch_step ops st b)
    refine ⟨h1.trans (by simp [ray_batch_step]),
      h2.trans (by simp [ray_batch_step]), fun _ => ?_, fun _ => ?_⟩
    · exact h3 (by simp [ray_batch_step])
    · exact h3 (by simp [ray_batch_step])

/-- One epoch of a Ray Train worker with at least one batch succeeds,
performs in source order the actions report, checkpoint-report call, metric
reset, and makes exactly one `ray.train.report` call, whose attached
checkpoint is present exactly when the worker's world rank is 0. -/
lemma run_epoch_ray_train_pure (ops : Ops) (ctx : RayCtx)
    (batches : List Batch) (hbs : batches ≠ []) (epoch : Nat)
    (st : RayLoopSt) :
    ∃ (st1 : RayLoopSt) (rep : ReportCall),
      run_epoch_ray_train ops ctx batches epoch st = some st1 ∧
      st1.reports = st.reports ++ [rep] ∧
      st1.events = st.events ++
        [Ev.report, Ev.saveCheckpoint, Ev.resetMetric] ∧
      (rep.checkpoint.isSome ↔ ctx.worldRank = 0) := by
  obtain ⟨hrep, hev, _, hl⟩ := foldl_ray_batch_step ops batches st
  obtain ⟨lossVal, hlv⟩ := Option.isSome_iff_exists.mp (hl hbs)
  have hrun : run_epoch_ray_train ops ctx batches epoch st = some
      ⟨(batches.foldl (ray_batch_step ops) st).model, 0, 0, some lossVal,
        (batches.foldl (ray_batch_step ops) st).reports ++
          [save_checkpoint_and_metrics_ray_train ctx
            (batches.foldl (ray_batch_step ops) st).model
            (print_metrics_ray_train lossVal
              (acc_compute (batches.foldl (ray_batch_step ops) st).accC
                (batches.foldl (ray_batch_step ops) st).accT) epoch)],
        (((batches.foldl (ray_batch_step ops) st).events ++ [Ev.report]) ++
          [Ev.saveCheckpoint]) ++ [Ev.resetMetric]⟩ := by
    simp only [run_epoch_ray_train]
    rw [hlv]
  refine ⟨_, save_checkpoint_and_metrics_ray_train ctx
    (batches.foldl (ray_batch_step ops) st).model
    (print_metrics_ray_train lossVal
      (acc_compute (batches.foldl (ray_batch_step ops) st).accC
        (batches.foldl (ray_batch_step ops) st).accT) epoch),
    hrun, by simp [hrep], by simp [hev], ?_⟩
  rw [save_checkpoint_and_metrics_ray_train]
  by_cases h0 : ctx.worldRank = 0 <;> simp [h0]

/-- Running the epochs `es` on a Ray Train worker with at least one batch per
epoch succeeds, makes exactly one `ray.train.report` call per epoch — each
attaching a checkpoint exactly when the worker's world rank is 0 — and
performs per epoch exactly the action block report, checkpoint-report call,
metric reset. -/
lemma run_epochs_ray_train_pure (ops : Ops) (ctx : RayCtx)
    (batches : List Batch) (hbs : batches ≠ []) :
    ∀ (es : List Nat) (st : RayLoopSt),
    ∃ (st1 : RayLoopSt) (reps : List ReportCall),
      run_epochs_ray_train ops ctx batches es st = some st1 ∧
      st1.reports = st.reports ++ reps ∧
      reps.length = es.length ∧
      (∀ rep ∈ reps, (rep.checkpoint.isSome ↔ ctx.worldRank = 0)) ∧
      st1.events = st.events ++ (List.replicate es.length
        [Ev.report, Ev.saveCheckpoint, Ev.resetMetric]).flatten := by
  intro es
  induction es with
  | nil =>
    intro st
    exact ⟨st, [], rfl, by simp, rfl, by simp, by simp⟩
  | cons e es ih =>
    intro st
    obtain ⟨stE, rep, hrunE, hrepE, hevE, hckE⟩ :=
      run_epoch_ray_train_pure ops ctx batches hbs e st
    obtain ⟨st1, reps, hrun1, hrep1, hlen1, hck1, hev1⟩ := ih stE
    refine ⟨st1, rep :: reps, ?_, ?_, by simp [hlen1], ?_, ?_⟩
    · rw [run_epochs_ray_train, hrunE]
      exact hrun1
    · rw [hrep1, hrepE]
      simp
    · intro r hr
      rcases List.mem_cons.mp hr with h | h
      · rw [h]
        exact hckE
      · exact hck1 r h
    · rw [hev1, hevE]
      simp [List.replicate_succ, List.append_assoc]

/-! ### Bridging lemmas -/

/-- `train_loop_torch` unfolded: the loader built once, the epochs
`0, ..., num_epochs - 1`, the fresh starting state. -/
lemma train_loop_torch_def {ε : Type} (env : TorchEnv ε)
    (num_epochs batch_size : Nat) (data : List Sample) (fs : FS) :
    train_loop_torch env num_epochs batch_size data fs =
      run_epochs_torch env (data_loader_torch batch_size data)
        (List.range num_epochs) ⟨load_model_torch, 0, 0, none, fs, []⟩ := rfl

/-- `train_loop_ray_train` unfolded: the local batch size is the floor
division of the global batch size by the world size. -/
lemma train_loop_ray_train_def (ops : Ops) (config : RayConfig) (ctx : RayCtx)
    (data : List Sample) :
    train_loop_ray_train ops config ctx data =
      run_epochs_ray_train ops ctx
        (data_loader_ray_train (config.global_batch_size / ctx.worldSize) ctx
          data)
        (List.range config.num_epochs) initRayLoopSt := rfl

/-- The single-device loader yields `length / batch_size` batches. -/
lemma data_loader_torch_length (batch_size : Nat) (data : List Sample) :
    (data_loader_torch batch_size data).length = data.length / batch_size := by
  simp [data_loader_torch, chunksExact_length]

/-- With `0 < batch_size ≤ length`, the single-device loader yields at least
one batch. -/
lemma data_loader_torch_ne_nil {batch_size : Nat} {data : List Sample}
    (hb : 0 < batch_size) (hlen : batch_size ≤ data.length) :
    data_loader_torch batch_size data ≠ [] := by
  intro hnil
  have h := data_loader_torch_length batch_size data
  rw [hnil] at h
  have h1 := (Nat.one_le_div_iff hb).mpr hlen
  simp at h
  omega

/-- With `0 < batch_size ≤` the shard's length, a worker's loader yields at
least one batch. -/
lemma data_loader_ray_train_ne_nil {batch_size : Nat} {ctx : RayCtx}
    {data : List Sample}
    (hb : 0 < batch_size)
    (hlen : batch_size ≤ (shard_dataset ctx.worldRank ctx.worldSize data).length) :
    data_loader_ray_train batch_size ctx data ≠ [] := by
  intro hnil
  have h : (data_loader_ray_train batch_size ctx data).length =
      (shard_dataset ctx.worldRank ctx.worldSize data).length / batch_size := by
    simp [data_loader_ray_train, chunksExact_length]
  rw [hnil] at h
  have h1 := (Nat.one_le_div_iff hb).mpr hlen
  simp at h
  omega

/-- Counting an element in the flattening of `n` copies of a block. -/
lemma count_flatten_replicate {α : Type _} [DecidableEq α] (n : Nat)
    (l : List α) (a : α) :
    ((List.replicate n l).flatten.count a) = n * l.count a := by
  induction n with
  | zero => simp
  | succ n ih => simp [List.replicate_succ, ih, Nat.succ_mul, Nat.add_comm]

/-! ### Claims -/

/-- Claim C3: after the single-device training loop runs for `N` epochs on a
fresh run directory (non-raising library calls, at least one batch per
epoch), the metrics log contains exactly `N` rows, one per completed epoch,
in increasing epoch order `0, ..., N - 1`; each row is the delimited values
of the metrics dict, whose keys are exactly loss, epoch, accuracy in that
column order. -/
theorem claim_C3_metrics_rows {ε : Type} (ops : Ops) (n batch_size : Nat)
    (data : List Sample) (hb : 0 < batch_size)
    (hlen : batch_size ≤ data.length) :
    (∀ (l a : ℚ) (e : Nat),
      (report_metrics_torch l a e).map Prod.fst =
        ["loss", "epoch", "accuracy"] ∧
      (report_metrics_torch l a e).map Prod.snd = [l, (e : ℚ), a]) ∧
    ∃ (st : LoopSt) (ps : List (ℚ × ℚ)),
      train_loop_torch (pureTorchEnv (ε := ε) ops) n batch_size data emptyFS =
        .ok st ∧
      ps.length = n ∧
      st.fs.metricsRows =
        List.zipWith (fun (e : Nat) (p : ℚ × ℚ) => [p.1, (e : ℚ), p.2])
          (List.range n) ps ∧
      st.fs.metricsRows.length = n := by
  refine ⟨fun l a e => ⟨rfl, rfl⟩, ?_⟩
  obtain ⟨m1, c1, t1, l1, ps, hps, _, hrun⟩ :=
    run_epochs_torch_pure (ε := ε) ops _ (data_loader_torch_ne_nil hb hlen)
      (List.range n) load_model_torch 0 0 none []
  rw [List.length_range] at hps
  have h0 := hrun emptyFS
  rw [← train_loop_torch_def] at h0
  exact ⟨_, ps, h0, hps, by simp [emptyFS], by simp [emptyFS, hps]⟩

/-- Witness for C3 at `N = 2` epochs, batch size 1, a one-sample dataset. -/
theorem claim_C3_witness :
    (∀ (l a : ℚ) (e : Nat),
      (report_metrics_torch l a e).map Prod.fst =
        ["loss", "epoch", "accuracy"] ∧
      (report_metrics_torch l a e).map Prod.snd = [l, (e : ℚ), a]) ∧
    ∃ (st : LoopSt) (ps : List (ℚ × ℚ)),
      train_loop_torch (pureTorchEnv (ε := Unit) trivialOps) 2 1
        [((0 : Int), (0 : Nat))] emptyFS = .ok st ∧
      ps.length = 2 ∧
      st.fs.metricsRows =
        List.zipWith (fun (e : Nat) (p : ℚ × ℚ) => [p.1, (e : ℚ), p.2])
          (List.range 2) ps ∧
      st.fs.metricsRows.length = 2 :=
  claim_C3_metrics_rows trivialOps 2 1 [((0 : Int), (0 : Nat))]
    (by decide) (by decide)

/-- Claim C4: for every epoch count the single-device loop performs exactly
one checkpoint write per epoch (the per-epoch action block contains
`saveCheckpoint` exactly once, `n` in total), the write happens as one state
transition of the embedding, and after the run `model.pt` holds exactly the
final weights, independently of whatever the file held before the run
(`wts` is chosen before the initial filesystem is quantified). -/
theorem claim_C4_checkpoint_supersedes {ε : Type} (ops : Ops)
    (n batch_size : Nat) (data : List Sample) (hb : 0 < batch_size)
    (hlen : batch_size ≤ data.length) (hn : 0 < n) :
    ∃ wts : List Int, ∀ fs : FS, ∃ st : LoopSt,
      train_loop_torch (pureTorchEnv (ε := ε) ops) n batch_size data fs =
        .ok st ∧
      st.events = (List.replicate n
        [Ev.report, Ev.resetMetric, Ev.mkdirRun, Ev.saveCheckpoint]).flatten ∧
      st.events.count Ev.saveCheckpoint = n ∧
      st.model.weights = wts ∧
      st.fs.modelFile = some wts := by
  obtain ⟨m1, c1, t1, l1, ps, hps, _, hrun⟩ :=
    run_epochs_torch_pure (ε := ε) ops _ (data_loader_torch_ne_nil hb hlen)
      (List.range n) load_model_torch 0 0 none []
  have hne : ¬(List.range n = []) := by
    rw [List.range_eq_nil]
    omega
  refine ⟨m1.weights, fun fs => ?_⟩
  have h0 := hrun fs
  rw [← train_loop_torch_def] at h0
  exact ⟨_, h0, by simp [List.length_range],
    by simp [List.length_range, count_flatten_replicate], rfl, by simp [hne]⟩

/-- Witness for C4 at 2 epochs, batch size 1, a one-sample dataset. -/
theorem claim_C4_witness :
    ∃ wts : List Int, ∀ fs : FS, ∃ st : LoopSt,
      train_loop_torch (pureTorchEnv (ε := Unit) trivialOps) 2 1
        [((0 : Int), (0 : Nat))] fs = .ok st ∧
      st.events = (List.replicate 2
        [Ev.report, Ev.resetMetric, Ev.mkdirRun, Ev.saveCheckpoint]).flatten ∧
      st.events.count Ev.saveCheckpoint = 2 ∧
      st.model.weights = wts ∧
      st.fs.modelFile = some wts :=
  claim_C4_checkpoint_supersedes trivialOps 2 1 [((0 : Int), (0 : Nat))]
    (by decide) (by decide) (by decide)

/-- Claim C10: the metrics file is opened in append mode and the run
directory is created with `exist_ok`: a single checkpoint-and-metrics write
keeps every existing row and appends exactly one row, and a whole run only
appends to whatever rows the directory already held (`st0` is the run on a
fresh directory; a rerun over the same directory therefore accumulates
rows). -/
theorem claim_C10_metrics_append {ε : Type} (ops : Ops) (n batch_size : Nat)
    (data : List Sample) (hb : 0 < batch_size)
    (hlen : batch_size ≤ data.length) :
    (∀ (metrics : List (String × ℚ)) (model : Model) (fs : FS),
      (save_checkpoint_and_metrics_torch metrics model fs).metricsRows =
        fs.metricsRows ++ [metrics.map Prod.snd] ∧
      (save_checkpoint_and_metrics_torch metrics model fs).dirExists =
        fs.dirExists) ∧
    ∃ st0 : LoopSt,
      train_loop_torch (pureTorchEnv (ε := ε) ops) n batch_size data emptyFS =
        .ok st0 ∧
      ∀ fs : FS, ∃ st : LoopSt,
        train_loop_torch (pureTorchEnv (ε := ε) ops) n batch_size data fs =
          .ok st ∧
        st.fs.metricsRows = fs.metricsRows ++ st0.fs.metricsRows := by
  refine ⟨fun metrics model fs => ⟨rfl, rfl⟩, ?_⟩
  obtain ⟨m1, c1, t1, l1, ps, hps, _, hrun⟩ :=
    run_epochs_torch_pure (ε := ε) ops _ (data_loader_torch_ne_nil hb hlen)
      (List.range n) load_model_torch 0 0 none []
  have h0 := hrun emptyFS
  rw [← train_loop_torch_def] at h0
  refine ⟨_, h0, fun fs => ?_⟩
  have h1 := hrun fs
  rw [← train_loop_torch_def] at h1
  exact ⟨_, h1, by simp [emptyFS]⟩

/-- Witness for C10 at 2 epochs, batch size 1, a one-sample dataset. -/
theorem claim_C10_witness :
    (∀ (metrics : List (String × ℚ)) (model : Model) (fs : FS),
      (save_checkpoint_and_metrics_torch metrics model fs).metricsRows =
        fs.metricsRows ++ [metrics.map Prod.snd] ∧
      (save_checkpoint_and_metrics_torch metrics model fs).dirExists =
        fs.dirExists) ∧
    ∃ st0 : LoopSt,
      train_loop_torch (pureTorchEnv (ε := Unit) trivialOps) 2 1
        [((0 : Int), (0 : Nat))] emptyFS = .ok st0 ∧
      ∀ fs : FS, ∃ st : LoopSt,
        train_loop_torch (pureTorchEnv (ε := Unit) trivialOps) 2 1
          [((0 : Int), (0 : Nat))] fs = .ok st ∧
        st.fs.metricsRows = fs.metricsRows ++ st0.fs.metricsRows :=
  claim_C10_metrics_append trivialOps 2 1 [((0 : Int), (0 : Nat))]
    (by decide) (by decide)

/-- Counterexample to claim C2 as stated: in the single-device loop the
epoch-end order is report, accuracy reset, directory creation, checkpoint
write — the running metric is reset BEFORE the checkpoint is written, not
after.  Concretely, one epoch over a one-sample dataset emits the trace
`[report, resetMetric, mkdirRun, saveCheckpoint]`, in which `resetMetric`
occurs at an earlier index than `saveCheckpoint`. -/
theorem claim_C2_counterexample :
    (train_loop_torch (pureTorchEnv (ε := Unit) trivialOps) 1 1
        [((0 : Int), (0 : Nat))] emptyFS).map LoopSt.events =
      .ok [Ev.report, Ev.resetMetric, Ev.mkdirRun, Ev.saveCheckpoint] ∧
    [Ev.report, Ev.resetMetric, Ev.mkdirRun,
        Ev.saveCheckpoint].indexOf Ev.resetMetric <
      [Ev.report, Ev.resetMetric, Ev.mkdirRun,
        Ev.saveCheckpoint].indexOf Ev.saveCheckpoint :=
  ⟨rfl, by decide⟩

/-- Claim C2 amended: at every epoch end the metrics record is emitted first
in both variants; afterwards the single-device loop resets the running
accuracy metric, creates the run directory, and only then writes the
checkpoint, while the multi-worker loop writes the checkpoint (the report
call) before resetting the running metric. -/
theorem claim_C2_amended_order {ε : Type} (ops : Ops) (n batch_size : Nat)
    (data : List Sample) (fs : FS) (config : RayConfig) (ctx : RayCtx)
    (rdata : List Sample) (hb : 0 < batch_size)
    (hlen : batch_size ≤ data.length)
    (hrb : 0 < config.global_batch_size / ctx.worldSize)
    (hrlen : config.global_batch_size / ctx.worldSize ≤
      (shard_dataset ctx.worldRank ctx.worldSize rdata).length) :
    (∃ st : LoopSt,
      train_loop_torch (pureTorchEnv (ε := ε) ops) n batch_size data fs =
        .ok st ∧
      st.events = (List.replicate n
        [Ev.report, Ev.resetMetric, Ev.mkdirRun, Ev.saveCheckpoint]).flatten) ∧
    (∃ st : RayLoopSt,
      train_loop_ray_train ops config ctx rdata = some st ∧
      st.events = (List.replicate config.num_epochs
        [Ev.report, Ev.saveCheckpoint, Ev.resetMetric]).flatten) := by
  constructor
  · obtain ⟨m1, c1, t1, l1, ps, hps, _, hrun⟩ :=
      run_epochs_torch_pure (ε := ε) ops _ (data_loader_torch_ne_nil hb hlen)
        (List.range n) load_model_torch 0 0 none []
    have h0 := hrun fs
    rw [← train_loop_torch_def] at h0
    exact ⟨_, h0, by simp [List.length_range]⟩
  · obtain ⟨st1, reps, hrun, _, _, _, hev⟩ :=
      run_epochs_ray_train_pure ops ctx _
        (data_loader_ray_train_ne_nil hrb hrlen)
        (List.range config.num_epochs) initRayLoopSt
    rw [← train_loop_ray_train_def] at hrun
    refine ⟨st1, hrun, ?_⟩
    rw [hev]
    simp [initRayLoopSt, List.length_range]

/-- Witness for the amended C2: one epoch in each variant on one-sample
data. -/
theorem claim_C2_witness :
    (∃ st : LoopSt,
      train_loop_torch (pureTorchEnv (ε := Unit) trivialOps) 1 1
        [((0 : Int), (0 : Nat))] emptyFS = .ok st ∧
      st.events = (List.replicate 1
        [Ev.report, Ev.resetMetric, Ev.mkdirRun, Ev.saveCheckpoint]).flatten) ∧
    (∃ st : RayLoopSt,
      train_loop_ray_train trivialOps ⟨1, 1⟩ ⟨1, 0⟩
        [((0 : Int), (0 : Nat))] = some st ∧
      st.events = (List.replicate 1
        [Ev.report, Ev.saveCheckpoint, Ev.resetMetric]).flatten) :=
  claim_C2_amended_order trivialOps 1 1 [((0 : Int), (0 : Nat))] emptyFS
    ⟨1, 1⟩ ⟨1, 0⟩ [((0 : Int), (0 : Nat))]
    (by decide) (by decide) (by decide) (by decide)

/-- Claim C1: in the multi-worker variant, for every epoch and worker count,
every worker makes exactly one report call per epoch, and among the workers
`0, ..., w - 1` exactly the one with world rank 0 attaches a (serialized)
checkpoint to its report — every other worker reports with no checkpoint. -/
theorem claim_C1_rank_zero_checkpoint (ops : Ops) (config : RayConfig)
    (data : List Sample) (w : Nat) (hw : 0 < w)
    (hb : 0 < config.global_batch_size / w)
    (hshard : ∀ r : Nat, r < w →
      config.global_batch_size / w ≤ (shard_dataset r w data).length) :
    ∀ r : Nat, r < w → ∃ st : RayLoopSt,
      train_loop_ray_train ops config ⟨w, r⟩ data = some st ∧
      st.reports.length = config.num_epochs ∧
      ∀ rep ∈ st.reports, (rep.checkpoint.isSome ↔ r = 0) := by
  intro r hr
  have hbs : data_loader_ray_train (config.global_batch_size / w)
      ⟨w, r⟩ data ≠ [] :=
    data_loader_ray_train_ne_nil hb (hshard r hr)
  obtain ⟨st1, reps, hrun, hrep, hlen, hck, _⟩ :=
    run_epochs_ray_train_pure ops ⟨w, r⟩ _ hbs
      (List.range config.num_epochs) initRayLoopSt
  rw [← train_loop_ray_train_def] at hrun
  refine ⟨st1, hrun, ?_, ?_⟩
  · rw [hrep]
    simp [initRayLoopSt, List.length_range, hlen]
  · intro rep hmem
    rw [hrep] at hmem
    simp only [initRayLoopSt, List.nil_append] at hmem
    exact hck rep hmem

/-- Witness for C1 at 2 workers, 2 global batch size, a two-sample dataset,
instantiated at rank 0. -/
theorem claim_C1_witness :
    ∃ st : RayLoopSt,
      train_loop_ray_train trivialOps ⟨1, 2⟩ ⟨2, 0⟩
        [((0 : Int), (0 : Nat)), ((1 : Int), (1 : Nat))] = some st ∧
      st.reports.length = 1 ∧
      ∀ rep ∈ st.reports, (rep.checkpoint.isSome ↔ 0 = 0) :=
  claim_C1_rank_zero_checkpoint trivialOps ⟨1, 2⟩
    [((0 : Int), (0 : Nat)), ((1 : Int), (1 : Nat))] 2
    (by decide) (by decide) (by decide) 0 (by decide)

/-- Claim C5: the multi-worker loop computes each worker's local batch size
as the integer floor division `global_batch_size // world_size` and hands it
to that worker's loader (first conjunct, definitional), and every batch that
loader yields holds exactly that many samples (second conjunct).  The worker
context carries only the world size and the world rank — the only distributed
quantities the notebook reads. -/
theorem claim_C5_local_batch_size (ops : Ops) (config : RayConfig)
    (ctx : RayCtx) (data : List Sample) :
    train_loop_ray_train ops config ctx data =
      run_epochs_ray_train ops ctx
        (data_loader_ray_train (config.global_batch_size / ctx.worldSize) ctx
          data)
        (List.range config.num_epochs) initRayLoopSt ∧
    ∀ b ∈ data_loader_ray_train (config.global_batch_size / ctx.worldSize)
        ctx data,
      b.images.length = config.global_batch_size / ctx.worldSize ∧
      b.labels.length = config.global_batch_size / ctx.worldSize := by
  refine ⟨rfl, fun b hmem => ?_⟩
  obtain ⟨c, hc, rfl⟩ := List.mem_map.mp hmem
  have hlen := length_of_mem_chunksExact hc
  simp [toBatch, hlen]

/-- Witness for C5 at 2 workers, 4 global batch size (local size 2), rank 0,
a four-sample dataset; the membership hypothesis is discharged at the
loader's first batch. -/
theorem claim_C5_witness :
    (train_loop_ray_train trivialOps ⟨1, 4⟩ ⟨2, 0⟩
        [((0 : Int), (0 : Nat)), ((1 : Int), (1 : Nat)),
          ((2 : Int), (0 : Nat)), ((3 : Int), (1 : Nat))] =
      run_epochs_ray_train trivialOps ⟨2, 0⟩
        (data_loader_ray_train ((4 : Nat) / (2 : Nat)) ⟨2, 0⟩
          [((0 : Int), (0 : Nat)), ((1 : Int), (1 : Nat)),
            ((2 : Int), (0 : Nat)), ((3 : Int), (1 : Nat))])
        (List.range 1) initRayLoopSt) ∧
    ((toBatch [((0 : Int), (0 : Nat)), ((2 : Int), (0 : Nat))]).images.length
        = (4 : Nat) / (2 : Nat) ∧
      (toBatch [((0 : Int), (0 : Nat)),
        ((2 : Int), (0 : Nat))]).labels.length = (4 : Nat) / (2 : Nat)) :=
  ⟨(claim_C5_local_batch_size trivialOps ⟨1, 4⟩ ⟨2, 0⟩
      [((0 : Int), (0 : Nat)), ((1 : Int), (1 : Nat)),
        ((2 : Int), (0 : Nat)), ((3 : Int), (1 : Nat))]).1,
    (claim_C5_local_batch_size trivialOps ⟨1, 4⟩ ⟨2, 0⟩
      [((0 : Int), (0 : Nat)), ((1 : Int), (1 : Nat)),
        ((2 : Int), (0 : Nat)), ((3 : Int), (1 : Nat))]).2
      (toBatch [((0 : Int), (0 : Nat)), ((2 : Int), (0 : Nat))])
      (by decide)⟩

/-- The batch loop over an appended list runs the first part and, if that
succeeded, continues with the second. -/
lemma run_batches_append {ε : Type} (env : TorchEnv ε) :
    ∀ (bs1 bs2 : List Batch) (st : LoopSt),
      run_batches env (bs1 ++ bs2) st =
        match run_batches env bs1 st with
        | .error e => .error e
        | .ok st1 => run_batches env bs2 st1 := by
  intro bs1
  induction bs1 with
  | nil =>
    intro bs2 st
    rfl
  | cons b bs ih =>
    intro bs2 st
    rw [List.cons_append, run_batches, run_batches]
    cases batch_step env st b with
    | error e => rfl
    | ok st1 => exact ih bs2 st1

/-- The epoch loop over an appended list runs the first part and, if that
succeeded, continues with the second. -/
lemma run_epochs_torch_append {ε : Type} (env : TorchEnv ε)
    (batches : List Batch) :
    ∀ (es1 es2 : List Nat) (st : LoopSt),
      run_epochs_torch env batches (es1 ++ es2) st =
        match run_epochs_torch env batches es1 st with
        | .error e => .error e
        | .ok st1 => run_epochs_torch env batches es2 st1 := by
  intro es1
  induction es1 with
  | nil =>
    intro es2 st
    rfl
  | cons e es ih =>
    intro es2 st
    rw [List.cons_append, run_epochs_torch, run_epochs_torch]
    cases run_epoch_torch env batches e st with
    | error err => rfl
    | ok st1 => exact ih es2 st1

/-- Claim C6: the loops install no exception handler.  (1) If the batches
before `b` succeed and the step on `b` raises `e`, the whole batch loop
returns exactly `e`, skipping everything after `b`.  (2) If the epochs before
`k` succeed and epoch `k` raises `e`, the whole epoch loop returns exactly
`e`.  (3) In particular, if the first epoch of `train_loop_torch` raises `e`,
the whole run aborts with exactly `e` — no retry, recovery or translation. -/
theorem claim_C6_exception_propagation :
    (∀ (ε : Type) (env : TorchEnv ε) (bs1 : List Batch) (b : Batch)
      (bs2 : List Batch) (st stMid : LoopSt) (e : TrainErr ε),
      run_batches env bs1 st = .ok stMid →
      batch_step env stMid b = .error e →
      run_batches env (bs1 ++ b :: bs2) st = .error e) ∧
    (∀ (ε : Type) (env : TorchEnv ε) (batches : List Batch)
      (es1 : List Nat) (k : Nat) (es2 : List Nat) (st stMid : LoopSt)
      (e : TrainErr ε),
      run_epochs_torch env batches es1 st = .ok stMid →
      run_epoch_torch env batches k stMid = .error e →
      run_epochs_torch env batches (es1 ++ k :: es2) st = .error e) ∧
    (∀ (ε : Type) (env : TorchEnv ε) (n batch_size : Nat)
      (data : List Sample) (fs : FS) (e : TrainErr ε), 0 < n →
      run_epoch_torch env (data_loader_torch batch_size data) 0
        ⟨load_model_torch, 0, 0, none, fs, []⟩ = .error e →
      train_loop_torch env n batch_size data fs = .error e) := by
  refine ⟨?_, ?_, ?_⟩
  · intro ε env bs1 b bs2 st stMid e h1 h2
    rw [run_batches_append, h1]
    dsimp only
    rw [run_batches, h2]
  · intro ε env batches es1 k es2 st stMid e h1 h2
    rw [run_epochs_torch_append, h1]
    dsimp only
    rw [run_epochs_torch, h2]
  · intro ε env n batch_size data fs e hn h1
    obtain ⟨m, rfl⟩ := Nat.exists_eq_succ_of_ne_zero (Nat.pos_iff_ne_zero.mp hn)
    rw [train_loop_torch_def, List.range_succ_eq_map, run_epochs_torch, h1]

/-- An environment whose loss criterion always raises, exercising C6. -/
def failingOps : TorchEnv Nat :=
  { forward := fun _ _ => .ok [],
    criterion := fun _ _ => .error 42,
    backwardStep := fun m _ => .ok m,
    accUpdate := fun _ _ => .ok (1, 1) }

/-- Witness for C6: with a criterion that raises `42` on the first batch, the
single-device run aborts with exactly that error. -/
theorem claim_C6_witness :
    train_loop_torch failingOps 1 1 [((0 : Int), (0 : Nat))] emptyFS =
      .error (TrainErr.lib 42) :=
  claim_C6_exception_propagation.2.2 Nat failingOps 1 1
    [((0 : Int), (0 : Nat))] emptyFS (TrainErr.lib 42) (by decide) rfl

/-- Claim C7: serializing a model's state dict and reloading it through the
notebook's reload cell (a fresh `build_resnet18()` plus `load_state_dict`)
is a round trip whenever the saved model has the built architecture's weight
count: the reload succeeds, the reloaded model takes single-channel input
(`inChannels = 1`), its output dimension is the declared class count 10, and
its weights are exactly the saved weights. -/
theorem claim_C7_checkpoint_roundtrip (m : Model)
    (hlen : (serialize_state_dict m).length = build_resnet18.weights.length) :
    ∃ loaded : Model,
      checkpoint_reload (serialize_state_dict m) = .ok loaded ∧
      loaded.inChannels = 1 ∧
      loaded.numClasses = 10 ∧
      loaded.weights = serialize_state_dict m := by
  refine ⟨{ build_resnet18 with weights := serialize_state_dict m },
    ?_, rfl, rfl, rfl⟩
  rw [checkpoint_reload, load_state_dict, if_pos hlen]

/-- Witness for C7: a model with the built architecture and distinct trained
weights round-trips. -/
theorem claim_C7_witness :
    ∃ loaded : Model,
      checkpoint_reload (serialize_state_dict
        { build_resnet18 with
          weights := List.replicate (paramCount 1 10) 7 }) = .ok loaded ∧
      loaded.inChannels = 1 ∧
      loaded.numClasses = 10 ∧
      loaded.weights = serialize_state_dict
        { build_resnet18 with
          weights := List.replicate (paramCount 1 10) 7 } :=
  claim_C7_checkpoint_roundtrip
    { build_resnet18 with weights := List.replicate (paramCount 1 10) 7 }
    (by simp [serialize_state_dict, build_resnet18, resnet18])

/-- Claim C8: when an epoch's batches are `bs ++ [bLast]`, the state after
the inner loop carries as `loss` exactly the criterion value of the LAST
batch, computed from the model as it stood BEFORE that batch's optimizer
step (`stMid.model`), while the accuracy accumulators extend the totals of
all previous batches by the last batch's contribution; the epoch-end metrics
row therefore records that last-batch loss together with the accuracy
aggregated over all the epoch's batches. -/
theorem claim_C8_last_batch_loss {ε : Type} (ops : Ops) (bs : List Batch)
    (bLast : Batch) (epoch : Nat) (st stMid st1 : LoopSt)
    (hfirst : run_batches (pureTorchEnv (ε := ε) ops) bs st = .ok stMid)
    (hall : run_batches (pureTorchEnv (ε := ε) ops) (bs ++ [bLast]) st =
      .ok st1) :
    st1.lastLoss = some (ops.criterion (ops.forward stMid.model bLast.images)
      bLast.labels) ∧
    st1.model = ops.backwardStep stMid.model
      (ops.criterion (ops.forward stMid.model bLast.images) bLast.labels) ∧
    st1.accC = stMid.accC +
      (ops.accUpdate (ops.forward stMid.model bLast.images) bLast.labels).1 ∧
    st1.accT = stMid.accT +
      (ops.accUpdate (ops.forward stMid.model bLast.images) bLast.labels).2 ∧
    ∃ st2 : LoopSt,
      run_epoch_torch (pureTorchEnv (ε := ε) ops) (bs ++ [bLast]) epoch st =
        .ok st2 ∧
      st2.fs.metricsRows = st.fs.metricsRows ++
        [[ops.criterion (ops.forward stMid.model bLast.images) bLast.labels,
          (epoch : ℚ), acc_compute st1.accC st1.accT]] := by
  have hallKeep := hall
  rw [run_batches_append, hfirst] at hall
  dsimp only at hall
  rw [run_batches, batch_step_pure] at hall
  dsimp only at hall
  rw [run_batches] at hall
  obtain rfl := (Except.ok.inj hall).symm
  obtain ⟨m1, c1, t1, l1, _, _, _, hrun⟩ := run_batches_pure (ε := ε) ops bs
    st.model st.accC st.accT st.lastLoss
  have hMid := hrun st.fs st.events
  have hfs : stMid.fs = st.fs := by
    have hEq := Except.ok.inj (hMid.symm.trans hfirst)
    rw [← hEq]
  refine ⟨rfl, rfl, rfl, rfl, ?_⟩
  have hep : run_epoch_torch (pureTorchEnv (ε := ε) ops) (bs ++ [bLast])
      epoch st = .ok
      ⟨ops.backwardStep stMid.model
          (ops.criterion (ops.forward stMid.model bLast.images) bLast.labels),
        0, 0,
        some (ops.criterion (ops.forward stMid.model bLast.images)
          bLast.labels),
        ⟨true, stMid.fs.metricsRows ++
          [[ops.criterion (ops.forward stMid.model bLast.images) bLast.labels,
            (epoch : ℚ),
            acc_compute
              (stMid.accC + (ops.accUpdate (ops.forward stMid.model
                bLast.images) bLast.labels).1)
              (stMid.accT + (ops.accUpdate (ops.forward stMid.model
                bLast.images) bLast.labels).2)]],
          some (ops.backwardStep stMid.model
            (ops.criterion (ops.forward stMid.model bLast.images)
              bLast.labels)).weights⟩,
        (((stMid.events ++ [Ev.report]) ++ [Ev.resetMetric]) ++
          [Ev.mkdirRun]) ++ [Ev.saveCheckpoint]⟩ := by
    rw [run_epoch_torch, hallKeep]
    rfl
  exact ⟨_, hep, by simp [hfs]⟩

/-- Witness for C8: one preceding batch and one last batch under the trivial
library operations. -/
theorem claim_C8_witness :
    (⟨load_model_torch, 2, 2, some 0, emptyFS, []⟩ : LoopSt).lastLoss =
      some (trivialOps.criterion
        (trivialOps.forward
          (⟨load_model_torch, 1, 1, some 0, emptyFS, []⟩ : LoopSt).model
          (Batch.mk [1] [1]).images)
        (Batch.mk [1] [1]).labels) ∧
    (⟨load_model_torch, 2, 2, some 0, emptyFS, []⟩ : LoopSt).model =
      trivialOps.backwardStep
        (⟨load_model_torch, 1, 1, some 0, emptyFS, []⟩ : LoopSt).model
        (trivialOps.criterion
          (trivialOps.forward
            (⟨load_model_torch, 1, 1, some 0, emptyFS, []⟩ : LoopSt).model
            (Batch.mk [1] [1]).images)
          (Batch.mk [1] [1]).labels) ∧
    (⟨load_model_torch, 2, 2, some 0, emptyFS, []⟩ : LoopSt).accC =
      (⟨load_model_torch, 1, 1, some 0, emptyFS, []⟩ : LoopSt).accC +
        (trivialOps.accUpdate
          (trivialOps.forward
            (⟨load_model_torch, 1, 1, some 0, emptyFS, []⟩ : LoopSt).model
            (Batch.mk [1] [1]).images)
          (Batch.mk [1] [1]).labels).1 ∧
    (⟨load_model_torch, 2, 2, some 0, emptyFS, []⟩ : LoopSt).accT =
      (⟨load_model_torch, 1, 1, some 0, emptyFS, []⟩ : LoopSt).accT +
        (trivialOps.accUpdate
          (trivialOps.forward
            (⟨load_model_torch, 1, 1, some 0, emptyFS, []⟩ : LoopSt).model
            (Batch.mk [1] [1]).images)
          (Batch.mk [1] [1]).labels).2 ∧
    ∃ st2 : LoopSt,
      run_epoch_torch (pureTorchEnv (ε := Unit) trivialOps)
          ([Batch.mk [0] [0]] ++ [Batch.mk [1] [1]]) 0
          ⟨load_model_torch, 0, 0, none, emptyFS, []⟩ = .ok st2 ∧
      st2.fs.metricsRows =
        (⟨load_model_torch, 0, 0, none, emptyFS, []⟩ :
          LoopSt).fs.metricsRows ++
        [[trivialOps.criterion
            (trivialOps.forward
              (⟨load_model_torch, 1, 1, some 0, emptyFS, []⟩ : LoopSt).model
              (Batch.mk [1] [1]).images)
            (Batch.mk [1] [1]).labels,
          ((0 : Nat) : ℚ),
          acc_compute
            (⟨load_model_torch, 2, 2, some 0, emptyFS, []⟩ : LoopSt).accC
            (⟨load_model_torch, 2, 2, some 0, emptyFS, []⟩ : LoopSt).accT]] :=
  claim_C8_last_batch_loss trivialOps [Batch.mk [0] [0]] (Batch.mk [1] [1]) 0
    ⟨load_model_torch, 0, 0, none, emptyFS, []⟩
    ⟨load_model_torch, 1, 1, some 0, emptyFS, []⟩
    ⟨load_model_torch, 2, 2, some 0, emptyFS, []⟩ rfl rfl

/-- Claim C9: the loader is built with `drop_last` enabled: every batch it
yields has exactly `batch_size` samples, it yields `length / batch_size`
batches (so a trailing remainder is silently skipped each epoch), and when
the dataset has fewer samples than `batch_size` it yields no batch at all,
making the first epoch-end metrics report fail (the `NameError` on the
never-assigned `loss`), whatever the library environment. -/
theorem claim_C9_drop_last (batch_size : Nat) (data : List Sample)
    (hb : 0 < batch_size) :
    (∀ b ∈ data_loader_torch batch_size data,
      b.images.length = batch_size ∧ b.labels.length = batch_size) ∧
    (data_loader_torch batch_size data).length = data.length / batch_size ∧
    (data.length < batch_size →
      ∀ (ε : Type) (env : TorchEnv ε) (n : Nat) (fs : FS), 0 < n →
        train_loop_torch env n batch_size data fs =
          .error TrainErr.unboundLossName) := by
  refine ⟨fun b hmem => ?_, data_loader_torch_length batch_size data, ?_⟩
  · obtain ⟨c, hc, rfl⟩ := List.mem_map.mp hmem
    have hlen := length_of_mem_chunksExact hc
    simp [toBatch, hlen]
  · intro hsmall ε env n fs hn
    have hload : data_loader_torch batch_size data = [] := by
      have h := data_loader_torch_length batch_size data
      rw [Nat.div_eq_of_lt hsmall] at h
      exact List.length_eq_zero.mp h
    obtain ⟨m, rfl⟩ :=
      Nat.exists_eq_succ_of_ne_zero (Nat.pos_iff_ne_zero.mp hn)
    rw [train_loop_torch_def, hload, List.range_succ_eq_map]
    rfl

/-- Witness for C9: batch size 2 on a one-sample dataset yields no batch and
the run fails with the unbound-`loss` error. -/
theorem claim_C9_witness :
    train_loop_torch (pureTorchEnv (ε := Unit) trivialOps) 1 2
      [((0 : Int), (0 : Nat))] emptyFS = .error TrainErr.unboundLossName :=
  (claim_C9_drop_last 2 [((0 : Int), (0 : Nat))] (by decide)).2.2 (by decide)
    Unit (pureTorchEnv trivialOps) 1 emptyFS (by decide)

end RS24
